import Mathlib

/-!
Shallow embedding of the detray coordinate-frame core
(`detray/coordinates/coordinate_base.hpp`, `detray/coordinates/cartesian2.hpp`)
and of the grid axis structures (`grids/axis.hpp`), over the real numbers.

Machine doubles are modelled as `ℝ`; fixed-size vectors and matrices as
functions out of `Fin n` / Mathlib `Matrix`.  External collaborators that are
not part of the source tree (the algebra-plugins `transform3`, the
`getter::phi` / `getter::theta` accessors, the `track_helper` element
accessors, and the `e_bound_*` / `e_free_*` index constants) are modelled
from the specification and marked as such in their doc comments.
-/

open Real

noncomputable section

namespace detray

/-- A 3D vector / point (`point3`, `vector3`). -/
abbrev Vec3 := Fin 3 → ℝ

/-- A 2D local point (`point2`). -/
abbrev Point2 := Fin 2 → ℝ

/-- Bound track vector, 6 entries (`bound_vector`, a 6x1 column). -/
abbrev BoundVector := Fin 6 → ℝ

/-- Free track vector, 8 entries (`free_vector`, an 8x1 column). -/
abbrev FreeVector := Fin 8 → ℝ

/-- Index constants of the bound parameterization.
Modelled from the spec: the data-model table gives
0:loc0, 1:loc1, 2:phi, 3:theta, 4:time, 5:qOverP. -/
def e_bound_loc0 : Fin 6 := 0

def e_bound_loc1 : Fin 6 := 1

def e_bound_phi : Fin 6 := 2

def e_bound_theta : Fin 6 := 3

def e_bound_time : Fin 6 := 4

def e_bound_qoverp : Fin 6 := 5

/-- Index constants of the free parameterization.
Modelled from the spec: the data-model table gives
0-2: global position, 3: time, 4-6: unit direction, 7: qOverP. -/
def e_free_pos0 : Fin 8 := 0

def e_free_pos1 : Fin 8 := 1

def e_free_pos2 : Fin 8 := 2

def e_free_time : Fin 8 := 3

def e_free_dir0 : Fin 8 := 4

def e_free_dir1 : Fin 8 := 5

def e_free_dir2 : Fin 8 := 6

def e_free_qoverp : Fin 8 := 7

/-- Modelled from the spec: the algebra-plugins `transform3`
(rotation 3x3 + translation 3x1), which "maps a surface's local frame to
global frame"; it is an external input, absent from the source tree. -/
structure Transform3 where
  rotation : Matrix (Fin 3) (Fin 3) ℝ
  translation : Vec3

namespace Transform3

/-- Modelled from the spec: `point_to_global` carries a local point to the
global frame, `x ↦ R x + t`. -/
def point_to_global (trf : Transform3) (p : Vec3) : Vec3 :=
  trf.rotation.mulVec p + trf.translation

/-- Modelled from the spec: `point_to_local` is the inverse map,
`x ↦ R⁻¹ (x - t)`; since the rotation of a rigid transform is orthogonal,
the inverse is realized as the transpose. -/
def point_to_local (trf : Transform3) (p : Vec3) : Vec3 :=
  trf.rotation.transpose.mulVec (p - trf.translation)

end Transform3

/-- Modelled from the spec: `getter::phi(dir) = atan2(dir_y, dir_x)`,
realized as the complex argument of `dir_x + dir_y * I`. -/
def getter_phi (d : Vec3) : ℝ :=
  Complex.arg ((d 0 : ℂ) + (d 1 : ℂ) * Complex.I)

/-- Modelled from the spec: `getter::theta(dir) = acos(dir_z)` for a unit
direction (the angle from the positive z axis). -/
def getter_theta (d : Vec3) : ℝ :=
  Real.arccos (d 2)

/-- Modelled from the spec: `track_helper::pos` on a free vector reads the
global position entries 0-2. -/
def track_pos (f : FreeVector) : Vec3 :=
  ![f e_free_pos0, f e_free_pos1, f e_free_pos2]

/-- Modelled from the spec: `track_helper::dir` on a free vector reads the
direction entries 4-6. -/
def track_dir (f : FreeVector) : Vec3 :=
  ![f e_free_dir0, f e_free_dir1, f e_free_dir2]

/-- Modelled from the spec: `track_helper::local` on a bound vector reads
the local-point entries 0-1. -/
def track_local (b : BoundVector) : Point2 :=
  ![b e_bound_loc0, b e_bound_loc1]

/-- Modelled from the spec: `track_helper::dir` on a bound vector
reconstructs the unit direction from phi/theta,
`dir = (sin θ cos φ, sin θ sin φ, cos θ)`. -/
def track_dir_bound (b : BoundVector) : Vec3 :=
  ![Real.sin (b e_bound_theta) * Real.cos (b e_bound_phi),
    Real.sin (b e_bound_theta) * Real.sin (b e_bound_phi),
    Real.cos (b e_bound_theta)]

/-- Modelled from the spec: `track_helper::pos` on a bound vector reads
entries 0-2 (the planar variant discards this argument). -/
def track_pos_bound (b : BoundVector) : Vec3 :=
  ![b 0, b 1, b 2]

/-- The opaque surface shape descriptor (`mask_t`); the planar variant
never inspects it. -/
abbrev Mask := Unit

/-- `matrix_actor().element(m, r, c) = v` write: functional update of one
matrix entry. -/
def setElem {m n : ℕ} (A : Matrix (Fin m) (Fin n) ℝ) (r : Fin m) (c : Fin n)
    (v : ℝ) : Matrix (Fin m) (Fin n) ℝ :=
  Matrix.of fun i j => if i = r ∧ j = c then v else A i j

/-- `matrix_actor().set_block(m, B, r, c)` write: functional overwrite of the
sub-block of `A` whose top-left corner is at row `r`, column `c` by `B`. -/
def setBlock {m n p q : ℕ} (A : Matrix (Fin m) (Fin n) ℝ)
    (B : Matrix (Fin p) (Fin q) ℝ) (r c : ℕ) : Matrix (Fin m) (Fin n) ℝ :=
  Matrix.of fun i j =>
    if h : r ≤ i.val ∧ i.val < r + p ∧ c ≤ j.val ∧ j.val < c + q then
      B ⟨i.val - r, by omega⟩ ⟨j.val - c, by omega⟩
    else A i j

/-! ## The planar frame variant (`struct cartesian2`) -/

namespace cartesian2

/-- `cartesian2::operator()(point3)`: project a local 3D point to the
native 2D coordinates by keeping the first two components. -/
def proj (local3 : Vec3) : Point2 :=
  ![local3 0, local3 1]

/-- `cartesian2::global_to_local`: carry the global point into the surface
local 3D frame, then project.  The direction argument is ignored. -/
def global_to_local (trf3 : Transform3) (p : Vec3) (_d : Vec3) : Point2 :=
  proj (trf3.point_to_local p)

/-- `cartesian2::local_to_global`: embed the local 2D point at `z = 0` and
carry it to the global frame.  Mask and direction arguments are ignored. -/
def local_to_global (trf3 : Transform3) (_mask : Mask) (p : Point2)
    (_d : Vec3) : Vec3 :=
  trf3.point_to_global ![p 0, p 1, 0]

/-- `cartesian2::reference_frame`: the surface's fixed rotation, independent
of position and direction. -/
def reference_frame (trf3 : Transform3) (_mask : Mask) (_pos : Vec3)
    (_dir : Vec3) : Matrix (Fin 3) (Fin 3) ℝ :=
  trf3.rotation

/-- `cartesian2::bound_pos_to_free_pos_derivative`: the 3x2 block of the
reference frame at row 0, column 0 (its first two columns). -/
def bound_pos_to_free_pos_derivative (trf3 : Transform3) (mask : Mask)
    (pos : Vec3) (dir : Vec3) : Matrix (Fin 3) (Fin 2) ℝ :=
  Matrix.of fun i j =>
    reference_frame trf3 mask pos dir i (Fin.castLE (by omega) j)

/-- `cartesian2::free_pos_to_bound_pos_derivative`: the 2x3 block of the
transposed reference frame at row 0, column 0. -/
def free_pos_to_bound_pos_derivative (trf3 : Transform3) (mask : Mask)
    (pos : Vec3) (dir : Vec3) : Matrix (Fin 2) (Fin 3) ℝ :=
  Matrix.of fun i j =>
    (reference_frame trf3 mask pos dir).transpose (Fin.castLE (by omega) i) j

end cartesian2

/-! ## The bound/free transform engine (`struct coordinate_base`),
instantiated at the planar variant -/

/-- `coordinate_base::free_to_bound_vector`: project position to local
coordinates, read phi/theta off the direction, copy time and qOverP. -/
def free_to_bound_vector (trf3 : Transform3) (free_vec : FreeVector) :
    BoundVector :=
  let pos := track_pos free_vec
  let dir := track_dir free_vec
  let lp := cartesian2.global_to_local trf3 pos dir
  ![lp 0, lp 1, getter_phi dir, getter_theta dir,
    free_vec e_free_time, free_vec e_free_qoverp]

/-- `coordinate_base::bound_to_free_vector`: rebuild the direction from
phi/theta, embed the local point globally, copy time and qOverP. -/
def bound_to_free_vector (trf3 : Transform3) (mask : Mask)
    (bound_vec : BoundVector) : FreeVector :=
  let lp := track_local bound_vec
  let dir := track_dir_bound bound_vec
  let pos := cartesian2.local_to_global trf3 mask lp dir
  ![pos 0, pos 1, pos 2, bound_vec e_bound_time,
    dir 0, dir 1, dir 2, bound_vec e_bound_qoverp]

/-- `coordinate_base::bound_to_free_jacobian`: zero-initialize the 8x6
matrix, write the 3x2 position block from the variant, the unit time and
qOverP entries, and the analytic spherical direction block. -/
def bound_to_free_jacobian (trf3 : Transform3) (mask : Mask)
    (bound_vec : BoundVector) : Matrix (Fin 8) (Fin 6) ℝ :=
  let theta := bound_vec e_bound_theta
  let phi := bound_vec e_bound_phi
  let cos_theta := Real.cos theta
  let sin_theta := Real.sin theta
  let cos_phi := Real.cos phi
  let sin_phi := Real.sin phi
  let pos := track_pos_bound bound_vec
  let dir := track_dir_bound bound_vec
  let j0 : Matrix (Fin 8) (Fin 6) ℝ := 0
  let j1 := setBlock j0
    (cartesian2.bound_pos_to_free_pos_derivative trf3 mask pos dir)
    e_free_pos0.val e_bound_loc0.val
  let j2 := setElem j1 e_free_time e_bound_time 1
  let j3 := setElem j2 e_free_dir0 e_bound_phi (-1 * sin_theta * sin_phi)
  let j4 := setElem j3 e_free_dir0 e_bound_theta (cos_theta * cos_phi)
  let j5 := setElem j4 e_free_dir1 e_bound_phi (sin_theta * cos_phi)
  let j6 := setElem j5 e_free_dir1 e_bound_theta (cos_theta * sin_phi)
  let j7 := setElem j6 e_free_dir2 e_bound_theta (-1 * sin_theta)
  setElem j7 e_free_qoverp e_bound_qoverp 1

/-- `coordinate_base::free_to_bound_jacobian`: zero-initialize the 6x8
matrix, write the 2x3 position block from the variant, the unit time and
qOverP entries, and the inverse spherical direction block (divides by
`sin θ`). -/
def free_to_bound_jacobian (trf3 : Transform3) (mask : Mask)
    (free_vec : FreeVector) : Matrix (Fin 6) (Fin 8) ℝ :=
  let pos := track_pos free_vec
  let dir := track_dir free_vec
  let theta := getter_theta dir
  let phi := getter_phi dir
  let cos_theta := Real.cos theta
  let sin_theta := Real.sin theta
  let cos_phi := Real.cos phi
  let sin_phi := Real.sin phi
  let j0 : Matrix (Fin 6) (Fin 8) ℝ := 0
  let j1 := setBlock j0
    (cartesian2.free_pos_to_bound_pos_derivative trf3 mask pos dir)
    e_bound_loc0.val e_free_pos0.val
  let j2 := setElem j1 e_bound_time e_free_time 1
  let j3 := setElem j2 e_bound_phi e_free_dir0 (-1 * sin_phi / sin_theta)
  let j4 := setElem j3 e_bound_phi e_free_dir1 (cos_phi / sin_theta)
  let j5 := setElem j4 e_bound_theta e_free_dir0 (cos_phi * cos_theta)
  let j6 := setElem j5 e_bound_theta e_free_dir1 (sin_phi * cos_theta)
  let j7 := setElem j6 e_bound_theta e_free_dir2 (-1 * sin_theta)
  setElem j7 e_bound_qoverp e_free_qoverp 1

/-- `coordinate_base::free_to_path_correction`: zero-initialize the 1x8
row, take the reference-frame z axis `n`, its cosine `dz = n · dir` with
the direction, and write `(-1/dz) nᵀ` into the position columns. -/
def free_to_path_correction (trf3 : Transform3) (mask : Mask)
    (free_vec : FreeVector) : Matrix (Fin 1) (Fin 8) ℝ :=
  let pos := track_pos free_vec
  let dir := track_dir free_vec
  let frame := cartesian2.reference_frame trf3 mask pos dir
  let ref_z_axis : Vec3 := fun i => frame i 2
  let dz := ∑ i, ref_z_axis i * dir i
  let correction_term : Matrix (Fin 1) (Fin 3) ℝ :=
    Matrix.of fun _ j => -1 / dz * ref_z_axis j
  setBlock (0 : Matrix (Fin 1) (Fin 8) ℝ) correction_term 0 e_free_pos0.val

/-! ## The grid axes (`grids/axis.hpp`) -/

namespace axis

/-- Modelled from the spec: `optional_index` (a signed index from
`utils/indexing.hpp`, absent from the source tree) is a signed integer;
`guaranteed_index` is an unsigned one, here `ℕ`. -/
abbrev optional_index := ℤ

/-- A C-style cast of a floating value to a signed integer: truncation
toward zero. -/
def castToIndex (x : ℝ) : optional_index :=
  if 0 ≤ x then ⌊x⌋ else ⌈x⌉

/-- `axis::closed`: a regular closed axis with `kDIM` bins between the
bounds `_min` and `_max`. -/
structure closed (kDIM : ℕ) where
  _min : ℝ
  _max : ℝ

/-- `axis::closed::bin`: the raw bin index of `v`, clamped into
`[0, kDIM-1]`. -/
def closed.bin {kDIM : ℕ} (ax : closed kDIM) (v : ℝ) : ℕ :=
  let ibin : optional_index := castToIndex ((v - ax._min) / (ax._max - ax._min) * kDIM)
  if 0 ≤ ibin ∧ ibin < kDIM then ibin.toNat
  else if ibin < 0 then 0
  else kDIM - 1

/-- `axis::circular`: a regular circular axis with `kDIM` bins between the
bounds `_min` and `_max`. -/
structure circular (kDIM : ℕ) where
  _min : ℝ
  _max : ℝ

/-- `axis::circular::bin`: the raw bin index of `v`, wrapped circularly. -/
def circular.bin {kDIM : ℕ} (ax : circular kDIM) (v : ℝ) : ℤ :=
  let ibin : optional_index := castToIndex ((v - ax._min) / (ax._max - ax._min) * kDIM)
  if 0 ≤ ibin ∧ ibin < kDIM then ibin
  else if ibin < 0 then kDIM + ibin
  else kDIM - ibin

/-- `axis::circular::range`: placeholder body, returns `{0, 0}` for every
input. -/
def circular.range {kDIM : ℕ} (_ax : circular kDIM) (_v : ℝ)
    (_nhood : ℕ) : ℕ × ℕ :=
  (0, 0)

/-- `axis::circular::zone`: placeholder body, returns the empty sequence
for every input. -/
def circular.zone {kDIM : ℕ} (_ax : circular kDIM) (_v : ℝ)
    (_nhood : ℕ) : List ℕ :=
  []

end axis

/-! ## Shared helper definitions and lemmas -/

/-- The identity transform: identity rotation, zero translation. -/
def idTransform : Transform3 := ⟨1, 0⟩

lemma point_to_local_point_to_global (trf3 : Transform3)
    (h : trf3.rotation.transpose * trf3.rotation = 1) (x : Vec3) :
    trf3.point_to_local (trf3.point_to_global x) = x := by
  unfold Transform3.point_to_local Transform3.point_to_global
  rw [add_sub_cancel_right, Matrix.mulVec_mulVec, h, Matrix.one_mulVec]

/-! ## Claim theorems -/

/-- C4: for the planar variant, `global_to_local` after `local_to_global`
returns the original local point exactly, for every rigid transform, shape
descriptor, local point and direction. -/
theorem cartesian2_round_trip (trf3 : Transform3) (mask : Mask) (p : Point2)
    (d : Vec3) (h : trf3.rotation.transpose * trf3.rotation = 1) :
    cartesian2.global_to_local trf3
      (cartesian2.local_to_global trf3 mask p d) d = p := by
  unfold cartesian2.global_to_local cartesian2.local_to_global
  rw [point_to_local_point_to_global trf3 h]
  funext i
  fin_cases i <;> rfl

/-- C4 witness: the round trip at the identity transform on the local point
`(1, 2)`. -/
theorem cartesian2_round_trip_witness :
    cartesian2.global_to_local idTransform
      (cartesian2.local_to_global idTransform () ![1, 2] ![0, 0, 1])
      ![0, 0, 1] = ![1, 2] :=
  cartesian2_round_trip idTransform () ![1, 2] ![0, 0, 1]
    (by simp [idTransform])

/-- C6: for the planar variant, `free_pos_to_bound_pos_derivative` is
exactly the transpose of `bound_pos_to_free_pos_derivative`, for every
transform, shape descriptor, position and direction. -/
theorem planar_derivative_blocks_transpose (trf3 : Transform3) (mask : Mask)
    (pos dir : Vec3) :
    cartesian2.free_pos_to_bound_pos_derivative trf3 mask pos dir =
      (cartesian2.bound_pos_to_free_pos_derivative trf3 mask pos dir).transpose := by
  funext i j
  simp [cartesian2.free_pos_to_bound_pos_derivative,
    cartesian2.bound_pos_to_free_pos_derivative, cartesian2.reference_frame,
    Matrix.transpose_apply]

/-- C8: at the identity transform, the bound vector
`(loc0 = 1, loc1 = 2, phi = 0.3, theta = 1.2, time = 5, qOverP = 0.01)`
maps to the free vector with position `(1, 2, 0)`, time `5`, direction
`(sin 1.2 cos 0.3, sin 1.2 sin 0.3, cos 1.2)` and qOverP `0.01`. -/
theorem bound_to_free_vector_concrete :
    bound_to_free_vector idTransform () ![1, 2, 0.3, 1.2, 5, 0.01] =
      ![1, 2, 0, 5, Real.sin 1.2 * Real.cos 0.3,
        Real.sin 1.2 * Real.sin 0.3, Real.cos 1.2, 0.01] := by
  funext i
  fin_cases i <;>
    first
    | rfl
    | simp [bound_to_free_vector, idTransform, cartesian2.local_to_global,
        Transform3.point_to_global, track_local, track_dir_bound,
        e_bound_loc0, e_bound_loc1, e_bound_phi, e_bound_theta, e_bound_time,
        e_bound_qoverp, Matrix.one_mulVec]

/-- C9: the circular axis's `range` always returns `{0, 0}` and its `zone`
always returns the empty sequence, for every bounds, bin count, value and
neighbourhood size. -/
theorem circular_range_zone_placeholder {kDIM : ℕ} (ax : axis.circular kDIM)
    (v : ℝ) (nhood : ℕ) :
    ax.range v nhood = (0, 0) ∧ ax.zone v nhood = [] :=
  ⟨rfl, rfl⟩

/-- C10: for a closed axis with a positive number of bins and well-ordered
bounds, `bin` always returns a valid bin index below `kDIM` (negative raw
indices clamp to `0`, overflowing ones to `kDIM - 1`). -/
theorem closed_bin_in_range {kDIM : ℕ} (ax : axis.closed kDIM) (v : ℝ)
    (hdim : 0 < kDIM) (hminmax : ax._min < ax._max) :
    ax.bin v < kDIM := by
  simp only [axis.closed.bin]
  split_ifs with h1 h2
  · exact (Int.toNat_lt h1.1).mpr h1.2
  · exact hdim
  · omega

/-- C10 witness: the closed axis with 2 bins on `[0, 1]` keeps the
overflowing value `10` inside the valid bin range. -/
theorem closed_bin_in_range_witness :
    0 < 2 ∧ (0 : ℝ) < 1 ∧
      axis.closed.bin (⟨0, 1⟩ : axis.closed 2) 10 < 2 :=
  ⟨by norm_num, by norm_num,
    closed_bin_in_range ⟨0, 1⟩ 10 (by norm_num) (by norm_num)⟩

/-- C1: `bound_to_free_jacobian` returns the 8x6 matrix whose position
block (rows 0-2, columns 0-1) is the variant's
`bound_pos_to_free_pos_derivative` (the first two columns of the rotation),
whose (time, time) and (qOverP, qOverP) entries are 1, whose direction
block holds the spherical derivatives read from the bound vector's phi and
theta, and whose every remaining entry is zero. -/
theorem bound_to_free_jacobian_entries (trf3 : Transform3) (mask : Mask)
    (b : BoundVector) :
    bound_to_free_jacobian trf3 mask b =
      Matrix.of fun i j =>
        if hij : i.val ≤ 2 ∧ j.val ≤ 1 then
          trf3.rotation ⟨i.val, by omega⟩ ⟨j.val, by omega⟩
        else if i = e_free_time ∧ j = e_bound_time then 1
        else if i = e_free_dir0 ∧ j = e_bound_phi then
          -1 * Real.sin (b e_bound_theta) * Real.sin (b e_bound_phi)
        else if i = e_free_dir0 ∧ j = e_bound_theta then
          Real.cos (b e_bound_theta) * Real.cos (b e_bound_phi)
        else if i = e_free_dir1 ∧ j = e_bound_phi then
          Real.sin (b e_bound_theta) * Real.cos (b e_bound_phi)
        else if i = e_free_dir1 ∧ j = e_bound_theta then
          Real.cos (b e_bound_theta) * Real.sin (b e_bound_phi)
        else if i = e_free_dir2 ∧ j = e_bound_theta then
          -1 * Real.sin (b e_bound_theta)
        else if i = e_free_qoverp ∧ j = e_bound_qoverp then 1
        else 0 := by
  funext i j
  simp only [bound_to_free_jacobian, setElem, setBlock, Matrix.of_apply,
    Matrix.zero_apply, cartesian2.bound_pos_to_free_pos_derivative,
    cartesian2.reference_frame, e_free_pos0, e_free_time, e_free_dir0,
    e_free_dir1, e_free_dir2, e_free_qoverp, e_bound_loc0, e_bound_phi,
    e_bound_theta, e_bound_time, e_bound_qoverp]
  fin_cases i <;> fin_cases j <;> simp +decide [Fin.castLE]

/-- A free vector whose direction is the global y axis. -/
def dirYFree : FreeVector := ![0, 0, 0, 0, 0, 1, 0, 0]

/-- A free vector whose direction is the global z axis. -/
def dirZFree : FreeVector := ![0, 0, 0, 0, 0, 0, 1, 0]

/-- C2: when the direction's polar angle has nonzero sine,
`free_to_bound_jacobian` returns the 6x8 matrix whose position block
(rows 0-1, columns 0-2) is the variant's `free_pos_to_bound_pos_derivative`
(the transposed rotation block), whose (time, time) and (qOverP, qOverP)
entries are 1, whose angular block holds the inverse spherical derivatives
computed from the direction, and whose every remaining entry is zero. -/
theorem free_to_bound_jacobian_entries (trf3 : Transform3) (mask : Mask)
    (f : FreeVector)
    (h : Real.sin (getter_theta (track_dir f)) ≠ 0) :
    free_to_bound_jacobian trf3 mask f =
      Matrix.of fun i j =>
        if hij : i.val ≤ 1 ∧ j.val ≤ 2 then
          trf3.rotation.transpose ⟨i.val, by omega⟩ ⟨j.val, by omega⟩
        else if i = e_bound_time ∧ j = e_free_time then 1
        else if i = e_bound_phi ∧ j = e_free_dir0 then
          -1 * Real.sin (getter_phi (track_dir f)) /
            Real.sin (getter_theta (track_dir f))
        else if i = e_bound_phi ∧ j = e_free_dir1 then
          Real.cos (getter_phi (track_dir f)) /
            Real.sin (getter_theta (track_dir f))
        else if i = e_bound_theta ∧ j = e_free_dir0 then
          Real.cos (getter_phi (track_dir f)) *
            Real.cos (getter_theta (track_dir f))
        else if i = e_bound_theta ∧ j = e_free_dir1 then
          Real.sin (getter_phi (track_dir f)) *
            Real.cos (getter_theta (track_dir f))
        else if i = e_bound_theta ∧ j = e_free_dir2 then
          -1 * Real.sin (getter_theta (track_dir f))
        else if i = e_bound_qoverp ∧ j = e_free_qoverp then 1
        else 0 := by
  funext i j
  simp only [free_to_bound_jacobian, setElem, setBlock, Matrix.of_apply,
    Matrix.zero_apply, cartesian2.free_pos_to_bound_pos_derivative,
    cartesian2.reference_frame, e_bound_loc0, e_bound_phi, e_bound_theta,
    e_bound_time, e_bound_qoverp, e_free_pos0, e_free_time, e_free_dir0,
    e_free_dir1, e_free_dir2, e_free_qoverp]
  fin_cases i <;> fin_cases j <;> simp +decide [Fin.castLE]

/-- C2 witness: the entry description instantiated at the identity
transform and a free vector directed along the y axis, where the polar
angle is `π/2`. -/
theorem free_to_bound_jacobian_entries_witness :
    free_to_bound_jacobian idTransform () dirYFree =
      Matrix.of fun i j =>
        if hij : i.val ≤ 1 ∧ j.val ≤ 2 then
          idTransform.rotation.transpose ⟨i.val, by omega⟩ ⟨j.val, by omega⟩
        else if i = e_bound_time ∧ j = e_free_time then 1
        else if i = e_bound_phi ∧ j = e_free_dir0 then
          -1 * Real.sin (getter_phi (track_dir dirYFree)) /
            Real.sin (getter_theta (track_dir dirYFree))
        else if i = e_bound_phi ∧ j = e_free_dir1 then
          Real.cos (getter_phi (track_dir dirYFree)) /
            Real.sin (getter_theta (track_dir dirYFree))
        else if i = e_bound_theta ∧ j = e_free_dir0 then
          Real.cos (getter_phi (track_dir dirYFree)) *
            Real.cos (getter_theta (track_dir dirYFree))
        else if i = e_bound_theta ∧ j = e_free_dir1 then
          Real.sin (getter_phi (track_dir dirYFree)) *
            Real.cos (getter_theta (track_dir dirYFree))
        else if i = e_bound_theta ∧ j = e_free_dir2 then
          -1 * Real.sin (getter_theta (track_dir dirYFree))
        else if i = e_bound_qoverp ∧ j = e_free_qoverp then 1
        else 0 :=
  free_to_bound_jacobian_entries idTransform () dirYFree (by
    have ht : track_dir dirYFree 2 = 0 := rfl
    simp [getter_theta, ht, Real.arccos_zero, Real.sin_pi_div_two])

/-- C3: when the cosine `dz` between the direction and the reference-frame
normal is nonzero, `free_to_path_correction` returns the 1x8 row whose
position columns hold `(-1/dz) nᵀ` (with `n` the normal, column 2 of the
reference frame) and whose remaining five entries are zero. -/
theorem free_to_path_correction_entries (trf3 : Transform3) (mask : Mask)
    (f : FreeVector)
    (h : (∑ k, trf3.rotation k 2 * track_dir f k) ≠ 0) :
    free_to_path_correction trf3 mask f =
      Matrix.of fun _ j =>
        if hj : j.val < 3 then
          -1 / (∑ k, trf3.rotation k 2 * track_dir f k) *
            trf3.rotation ⟨j.val, hj⟩ 2
        else 0 := by
  funext i j
  simp only [free_to_path_correction, setBlock, Matrix.of_apply,
    Matrix.zero_apply, cartesian2.reference_frame, e_free_pos0]
  fin_cases i
  fin_cases j <;> simp +decide

/-- C3 witness: the row description instantiated at the identity transform
and a free vector directed along the z axis, where `dz = 1`. -/
theorem free_to_path_correction_entries_witness :
    free_to_path_correction idTransform () dirZFree =
      Matrix.of fun _ j =>
        if hj : j.val < 3 then
          -1 / (∑ k, idTransform.rotation k 2 * track_dir dirZFree k) *
            idTransform.rotation ⟨j.val, hj⟩ 2
        else 0 :=
  free_to_path_correction_entries idTransform () dirZFree (by
    simp [idTransform, track_dir, dirZFree, Fin.sum_univ_three,
      Matrix.one_apply, e_free_dir0, e_free_dir1, e_free_dir2,
      show (![0, 0, 0, 0, 0, 0, 1, 0] : FreeVector) 6 = 1 from rfl])

lemma arg_spherical {s φ : ℝ} (h0 : 0 < s) (h1 : -Real.pi < φ)
    (h2 : φ ≤ Real.pi) :
    Complex.arg ((↑(s * Real.cos φ) : ℂ) +
      (↑(s * Real.sin φ) : ℂ) * Complex.I) = φ := by
  have key : ((↑(s * Real.cos φ) : ℂ) + (↑(s * Real.sin φ) : ℂ) * Complex.I) =
      (↑s : ℂ) * (Complex.cos ↑φ + Complex.sin ↑φ * Complex.I) := by
    rw [← Complex.ofReal_cos, ← Complex.ofReal_sin]
    push_cast
    ring
  rw [key, Complex.arg_real_mul _ h0,
    Complex.arg_cos_add_sin_mul_I (Set.mem_Ioc.mpr ⟨h1, h2⟩)]

/-- C5: for every rigid transform, shape descriptor and bound vector whose
theta lies strictly inside `(0, π)` and whose phi lies in the principal
branch `(-π, π]` (phi at the `±π` branch cut identified),
`free_to_bound_vector` after `bound_to_free_vector` reproduces the bound
vector exactly. -/
theorem bound_free_round_trip (trf3 : Transform3) (mask : Mask)
    (b : BoundVector)
    (horth : trf3.rotation.transpose * trf3.rotation = 1)
    (htheta : 0 < b e_bound_theta ∧ b e_bound_theta < Real.pi)
    (hphi : -Real.pi < b e_bound_phi ∧ b e_bound_phi ≤ Real.pi) :
    free_to_bound_vector trf3 (bound_to_free_vector trf3 mask b) = b := by
  have hsin : 0 < Real.sin (b e_bound_theta) :=
    Real.sin_pos_of_pos_of_lt_pi htheta.1 htheta.2
  have hpos : track_pos (bound_to_free_vector trf3 mask b) =
      trf3.point_to_global ![b e_bound_loc0, b e_bound_loc1, 0] := by
    funext i
    fin_cases i <;> rfl
  have hdir : track_dir (bound_to_free_vector trf3 mask b) =
      track_dir_bound b := by
    funext i
    fin_cases i <;> rfl
  have hlocal : cartesian2.global_to_local trf3
      (track_pos (bound_to_free_vector trf3 mask b))
      (track_dir (bound_to_free_vector trf3 mask b)) =
      ![b e_bound_loc0, b e_bound_loc1] := by
    rw [hpos]
    unfold cartesian2.global_to_local
    rw [point_to_local_point_to_global trf3 horth]
    funext i
    fin_cases i <;> rfl
  have hphi2 : getter_phi (track_dir_bound b) = b e_bound_phi := by
    have h0 : track_dir_bound b 0 =
      Real.sin (b e_bound_theta) * Real.cos (b e_bound_phi) := rfl
    have h1 : track_dir_bound b 1 =
      Real.sin (b e_bound_theta) * Real.sin (b e_bound_phi) := rfl
    unfold getter_phi
    rw [h0, h1]
    exact arg_spherical hsin hphi.1 hphi.2
  have htheta2 : getter_theta (track_dir_bound b) = b e_bound_theta := by
    have h2 : track_dir_bound b 2 = Real.cos (b e_bound_theta) := rfl
    unfold getter_theta
    rw [h2, Real.arccos_cos htheta.1.le htheta.2.le]
  funext i
  simp only [free_to_bound_vector]
  rw [hlocal, hdir, hphi2, htheta2]
  fin_cases i <;> rfl

/-- C5 witness: the round trip at the identity transform with
`theta = π/2` and `phi = 0`. -/
theorem bound_free_round_trip_witness :
    free_to_bound_vector idTransform
      (bound_to_free_vector idTransform ()
        ![0, 0, 0, Real.pi / 2, 0, 0]) = ![0, 0, 0, Real.pi / 2, 0, 0] :=
  bound_free_round_trip idTransform () ![0, 0, 0, Real.pi / 2, 0, 0]
    (by simp [idTransform])
    (by
      constructor
      · show (0 : ℝ) < Real.pi / 2
        linarith [Real.pi_pos]
      · show Real.pi / 2 < Real.pi
        linarith [Real.pi_pos])
    (by
      constructor
      · show -Real.pi < (0 : ℝ)
        linarith [Real.pi_pos]
      · show (0 : ℝ) ≤ Real.pi
        linarith [Real.pi_pos])

lemma free_to_bound_jacobian_phi_dir0 (trf3 : Transform3) (mask : Mask)
    (f : FreeVector) :
    free_to_bound_jacobian trf3 mask f e_bound_phi e_free_dir0 =
      -1 * Real.sin (getter_phi (track_dir f)) /
        Real.sin (getter_theta (track_dir f)) := by
  simp only [free_to_bound_jacobian, setElem, setBlock, Matrix.of_apply,
    Matrix.zero_apply, e_bound_phi, e_free_dir0]
  simp +decide

lemma free_to_bound_jacobian_phi_dir1 (trf3 : Transform3) (mask : Mask)
    (f : FreeVector) :
    free_to_bound_jacobian trf3 mask f e_bound_phi e_free_dir1 =
      Real.cos (getter_phi (track_dir f)) /
        Real.sin (getter_theta (track_dir f)) := by
  simp only [free_to_bound_jacobian, setElem, setBlock, Matrix.of_apply,
    Matrix.zero_apply, e_bound_phi, e_free_dir1]
  simp +decide

/-- C7: under the precondition that the direction's polar angle lies
strictly inside `(0, π)`, the divisor `sin θ` used by
`free_to_bound_jacobian` is nonzero and the phi-row entries are genuine
quotients by it (multiplying back by `sin θ` recovers the numerators);
at the poles `θ = 0` or `θ = π` the same unguarded quotient by
`sin θ = 0` is produced — no branch clamps or substitutes another value. -/
theorem free_to_bound_jacobian_division (trf3 : Transform3) (mask : Mask) :
    (∀ f : FreeVector,
      0 < getter_theta (track_dir f) → getter_theta (track_dir f) < Real.pi →
      Real.sin (getter_theta (track_dir f)) ≠ 0 ∧
      free_to_bound_jacobian trf3 mask f e_bound_phi e_free_dir0 *
          Real.sin (getter_theta (track_dir f)) =
        -1 * Real.sin (getter_phi (track_dir f)) ∧
      free_to_bound_jacobian trf3 mask f e_bound_phi e_free_dir1 *
          Real.sin (getter_theta (track_dir f)) =
        Real.cos (getter_phi (track_dir f))) ∧
    (∀ f : FreeVector,
      getter_theta (track_dir f) = 0 ∨
        getter_theta (track_dir f) = Real.pi →
      Real.sin (getter_theta (track_dir f)) = 0 ∧
      free_to_bound_jacobian trf3 mask f e_bound_phi e_free_dir0 =
        -1 * Real.sin (getter_phi (track_dir f)) /
          Real.sin (getter_theta (track_dir f)) ∧
      free_to_bound_jacobian trf3 mask f e_bound_phi e_free_dir1 =
        Real.cos (getter_phi (track_dir f)) /
          Real.sin (getter_theta (track_dir f))) := by
  constructor
  · intro f h0 h1
    have hs : Real.sin (getter_theta (track_dir f)) ≠ 0 :=
      ne_of_gt (Real.sin_pos_of_pos_of_lt_pi h0 h1)
    refine ⟨hs, ?_, ?_⟩
    · rw [free_to_bound_jacobian_phi_dir0, div_mul_cancel₀ _ hs]
    · rw [free_to_bound_jacobian_phi_dir1, div_mul_cancel₀ _ hs]
  · intro f h
    refine ⟨?_, free_to_bound_jacobian_phi_dir0 trf3 mask f,
      free_to_bound_jacobian_phi_dir1 trf3 mask f⟩
    rcases h with h | h <;> rw [h] <;> simp [Real.sin_pi]

/-- C7 witness: the precondition part at a direction along the y axis
(`θ = π/2`), the pole part at a direction along the z axis (`θ = 0`). -/
theorem free_to_bound_jacobian_division_witness :
    (Real.sin (getter_theta (track_dir dirYFree)) ≠ 0 ∧
      free_to_bound_jacobian idTransform () dirYFree e_bound_phi e_free_dir0 *
          Real.sin (getter_theta (track_dir dirYFree)) =
        -1 * Real.sin (getter_phi (track_dir dirYFree)) ∧
      free_to_bound_jacobian idTransform () dirYFree e_bound_phi e_free_dir1 *
          Real.sin (getter_theta (track_dir dirYFree)) =
        Real.cos (getter_phi (track_dir dirYFree))) ∧
    (Real.sin (getter_theta (track_dir dirZFree)) = 0 ∧
      free_to_bound_jacobian idTransform () dirZFree e_bound_phi e_free_dir0 =
        -1 * Real.sin (getter_phi (track_dir dirZFree)) /
          Real.sin (getter_theta (track_dir dirZFree)) ∧
      free_to_bound_jacobian idTransform () dirZFree e_bound_phi e_free_dir1 =
        Real.cos (getter_phi (track_dir dirZFree)) /
          Real.sin (getter_theta (track_dir dirZFree))) := by
  constructor
  · refine (free_to_bound_jacobian_division idTransform ()).1 dirYFree ?_ ?_
    · have h2 : track_dir dirYFree 2 = 0 := rfl
      unfold getter_theta
      rw [h2, Real.arccos_zero]
      linarith [Real.pi_pos]
    · have h2 : track_dir dirYFree 2 = 0 := rfl
      unfold getter_theta
      rw [h2, Real.arccos_zero]
      linarith [Real.pi_pos]
  · refine (free_to_bound_jacobian_division idTransform ()).2 dirZFree
      (Or.inl ?_)
    have h2 : track_dir dirZFree 2 = 1 := rfl
    unfold getter_theta
    rw [h2, Real.arccos_one]

end detray

end
